import Mathlib

/-!
Verification of the local persistence layer of the Execuxion workflow
automation tool: the HMAC-integrity store (`SecureStore`), the retrying
storage manager (`StorageManager`), the debounced save queue of the Pinia
storage plugin, and the workflow-collection corruption repair
(`convertWorkflowsToObject`).

JavaScript values that can reach this layer are JSON-like; they are embedded
as the inductive type `JVal`.  Stored state is an association list
`List (String × JVal)` with first-match lookup; a write prepends, which gives
the usual overwrite semantics under first-match lookup.
-/

/-- JSON-like JavaScript value: `undefined`, `null`, booleans, (integer)
numbers, strings, arrays, and objects with ordered fields.  Object field
order is significant, exactly as it is for JavaScript objects and for
`JSON.stringify`. -/
inductive JVal where
  | undefined : JVal
  | null : JVal
  | bool (b : Bool) : JVal
  | num (n : Int) : JVal
  | str (s : String) : JVal
  | arr (xs : List JVal) : JVal
  | obj (fs : List (String × JVal)) : JVal

/-- First-match lookup in an ordered field list (JavaScript property read on
an object without duplicate keys). -/
def objGet (fs : List (String × JVal)) (k : String) : Option JVal :=
  match fs with
  | [] => none
  | (k', v) :: rest => if k' = k then some v else objGet rest k

/-- JavaScript property access `v.k`: `undefined` on anything that is not an
object carrying the key (property reads on arrays and primitives used by this
code always yield `undefined`). -/
def getProp : JVal → String → JVal
  | .obj fs, k => (objGet fs k).getD .undefined
  | _, _ => .undefined

/-- JavaScript truthiness. -/
def truthy : JVal → Bool
  | .undefined => false
  | .null => false
  | .bool b => b
  | .num n => n != 0
  | .str s => s != ""
  | .arr _ => true
  | .obj _ => true

/-- `typeof v === 'object'` — true for `null`, arrays and objects. -/
def isObjectType : JVal → Bool
  | .null => true
  | .arr _ => true
  | .obj _ => true
  | _ => false

/-- `v === undefined`. -/
def isUndefined : JVal → Bool
  | .undefined => true
  | _ => false

/-- `Array.isArray v`. -/
def isArr : JVal → Bool
  | .arr _ => true
  | _ => false

/-- Elements of an array value (`[]` on non-arrays; only applied under an
`isArr` guard). -/
def asArr : JVal → List JVal
  | .arr xs => xs
  | _ => []

/-- `Object.keys v` (empty on non-objects; only applied to objects here). -/
def objKeys : JVal → List String
  | .obj fs => fs.map Prod.fst
  | _ => []

/-- Escape of one character inside a JSON string literal.  The quote and the
backslash are escaped; control characters do not occur in the values of this
development and are left as-is. -/
def jsonEscapeChar (c : Char) : String :=
  if c = '"' then "\\\"" else if c = '\\' then "\\\\" else String.singleton c

/-- Escape of a string body for `JSON.stringify`. -/
def jsonEscape (s : String) : String :=
  String.join (s.data.map jsonEscapeChar)

mutual

/-- Model of `JSON.stringify`: `none` is the JavaScript `undefined` result
(for an `undefined` top-level value); `undefined` elements of arrays encode
as `null` and `undefined`-valued object fields are dropped, as in
JavaScript.  Numbers are modelled as integers, which print identically. -/
def serialize : JVal → Option String
  | .undefined => none
  | .null => some "null"
  | .bool b => some (if b then "true" else "false")
  | .num n => some (toString n)
  | .str s => some ("\"" ++ jsonEscape s ++ "\"")
  | .arr xs => some ("[" ++ String.intercalate "," (serializeList xs) ++ "]")
  | .obj fs => some ("\x7b" ++ String.intercalate "," (serializeFields fs) ++ "\x7d")

/-- Serialization of array elements (`undefined` becomes `null`). -/
def serializeList : List JVal → List String
  | [] => []
  | x :: xs => ((serialize x).getD "null") :: serializeList xs

/-- Serialization of object fields in order (`undefined`-valued fields are
dropped). -/
def serializeFields : List (String × JVal) → List String
  | [] => []
  | (k, v) :: fs =>
    match serialize v with
    | none => serializeFields fs
    | some s => ("\"" ++ jsonEscape k ++ "\":" ++ s) :: serializeFields fs

end

/-- `JSON.stringify` as a total string: the string `"undefined"` stands for
the JavaScript `undefined` result, which never arises for the values fed to
the MAC in this development. -/
def serializeD (v : JVal) : String :=
  (serialize v).getD "undefined"

/-- Serialization of an optional read result: a missing key serializes the
way `JSON.stringify(undefined)` does, to no string at all. -/
def serializeOpt : Option JVal → Option String
  | none => none
  | some v => serialize v

mutual

/-- Logical equality of JSON values up to object field order: both sides must
have the same fields with (recursively) order-equal values, arrays stay
order-sensitive.  This is the "logically equal, differing only in the order
of their fields" relation of the specification. -/
def jsonEquiv : JVal → JVal → Bool
  | .undefined, .undefined => true
  | .null, .null => true
  | .bool a, .bool b => a == b
  | .num a, .num b => a == b
  | .str a, .str b => a == b
  | .arr xs, .arr ys => jsonEquivList xs ys
  | .obj fs, .obj gs => fs.length == gs.length && jsonEquivFields fs gs
  | _, _ => false

/-- Elementwise order-sensitive equivalence of arrays. -/
def jsonEquivList : List JVal → List JVal → Bool
  | [], [] => true
  | x :: xs, y :: ys => jsonEquiv x y && jsonEquivList xs ys
  | _, _ => false

/-- Every field of the first object must appear (under its key) in the second
with an equivalent value. -/
def jsonEquivFields : List (String × JVal) → List (String × JVal) → Bool
  | [], _ => true
  | (k, v) :: rest, gs =>
    (match objGet gs k with
     | some w => jsonEquiv v w
     | none => false) && jsonEquivFields rest gs

end

/-- A simple executable 64-bit string hash (used only to build an executable
stand-in for the external HMAC-SHA256 primitive). -/
def mockHash (s : String) : Nat :=
  s.data.foldl (fun h c => (h * 31 + c.toNat + 1) % (2 ^ 64)) 7

/-- Lower-case hexadecimal digit. -/
def toHexDigit (n : Nat) : Char :=
  if n < 10 then Char.ofNat (48 + n) else Char.ofNat (87 + n)

/-- Big-endian fixed-width hexadecimal rendering (`count` digits). -/
def hexChars (n : Nat) : Nat → String
  | 0 => ""
  | c + 1 => hexChars (n / 16) c ++ String.singleton (toHexDigit (n % 16))

/-- Modelled from the spec: `HmacSHA256(message, SHA256(encryptionKey))` from
`crypto-js` is an external collaborator, not code of this repository.  The
development is parameterised over an arbitrary tag function
`mac : String → String` (message to hex tag, the derived key already fixed
inside); `mockMac` is an executable stand-in producing 64 hex characters,
used to instantiate witnesses and counterexamples. -/
def mockMac (s : String) : String :=
  hexChars (mockHash s) 64

theorem hexChars_length (n c : Nat) : (hexChars n c).length = c := by
  induction c generalizing n with
  | zero => rfl
  | succ c ih =>
    simp only [hexChars, String.length_append, ih]
    rfl

theorem mockMac_length (s : String) : (mockMac s).length = 64 := by
  simp [mockMac, hexChars_length]

namespace SecureStore

/-- `SecureStore._computeHmac` (secure-store module, lines 40-48): serialize
the value with `JSON.stringify` and apply the keyed MAC. -/
def computeHmac (mac : String → String) (value : JVal) : String :=
  mac (serializeD value)

/-- `SecureStore._isHmacWrapped` (lines 54-65): a non-null, non-array object
that has a `data` property and an `hmac` property whose value is a string of
length 64.  Extra properties (such as the `_v` marker) are permitted. -/
def isHmacWrapped (value : JVal) : Bool :=
  match value with
  | .obj fs =>
    (objGet fs "data").isSome &&
      (match objGet fs "hmac" with
       | some (.str h) => h.length == 64
       | _ => false)
  | _ => false

/-- `SecureStore._wrapWithHmac` (lines 71-82): return already-wrapped values
as-is, otherwise build `{data, hmac, _v: 1}`. -/
def wrapWithHmac (mac : String → String) (value : JVal) : JVal :=
  if isHmacWrapped value then value
  else .obj [("data", value), ("hmac", .str (computeHmac mac value)), ("_v", .num 1)]

/-- `SecureStore._unwrapWithHmac` (lines 89-106): unwrapped values pass
through unchanged; wrapped values are returned only when the stored tag
equals the tag recomputed over the stored `data`, otherwise the error that
the JavaScript code throws is produced.  (When the shape check succeeded the
`hmac` field is a string; a non-string `hmac` would also fail the strict
comparison against the recomputed string tag and throw.) -/
def unwrapWithHmac (mac : String → String) (wrapped : JVal) (key : String) :
    Except String JVal :=
  if isHmacWrapped wrapped then
    match getProp wrapped "hmac" with
    | .str h =>
      if h = computeHmac mac (getProp wrapped "data") then
        .ok (getProp wrapped "data")
      else
        .error ("HMAC verification failed for key: " ++ key ++
          ". Data may be tampered or corrupted.")
    | _ =>
      .error ("HMAC verification failed for key: " ++ key ++
        ". Data may be tampered or corrupted.")
  else .ok wrapped

/-- Security-incident record produced by `SecureStore._logIntegrityFailure`
(lines 282-296): timestamp, store name, key, error message and failure
kind. -/
structure Incident where
  timestamp : String
  store : String
  key : String
  error : String
  type : String

/-- `SecureStore.get` (lines 197-220): read the raw entry (`none` plays the
role of `undefined`, yielding the default), verify and unwrap; a verification
failure is caught, logged as exactly one security incident, and the supplied
default is returned.  The wall-clock timestamp of the incident is passed in
as `now`. -/
def get (mac : String → String) (innerStore : List (String × JVal))
    (name key : String) (defaultValue : JVal) (now : String) :
    JVal × List Incident :=
  match objGet innerStore key with
  | none => (defaultValue, [])
  | some wrapped =>
    match unwrapWithHmac mac wrapped key with
    | .ok data => (data, [])
    | .error e =>
      (defaultValue,
       [{ timestamp := now, store := name, key := key, error := e,
          type := "HMAC_VERIFICATION_FAILED" }])

/-- `SecureStore.set` (lines 182-191): the try/catch around wrapping and the
inner write, converted to a `Bool`.  The wrap step and the inner store's
`set` are passed as fallible operations: wrapping can throw inside
`JSON.stringify` (on values that have no JSON image, which the `JVal`
embedding cannot express) and the inner write can throw an I/O error.  The
total return type `Bool` is the "never throws to the caller" contract. -/
def set (wrap : JVal → Except String JVal)
    (write : String → JVal → Except String Unit) (key : String) (value : JVal) :
    Bool :=
  match wrap value with
  | .error _ => false
  | .ok w =>
    match write key w with
    | .ok _ => true
    | .error _ => false

end SecureStore

/-- The 64-zero tag used as a concrete tampered `hmac` value. -/
def zeros64 : String := String.mk (List.replicate 64 '0')

/-- A wrapped-shaped entry whose stored tag does not match any recomputed
tag: `{data: null, hmac: "000…0"}`. -/
def tamperedEntry : JVal := .obj [("data", JVal.null), ("hmac", .str zeros64)]

/-- C1: for every key whose stored entry is in wrapped shape but whose stored
hmac does not equal the tag recomputed over the stored data, `get(key,
default)` returns the supplied default value — never the tampered payload —
and emits exactly one security-incident record carrying the timestamp, the
store name, the key, and the failure kind. -/
theorem secure_get_tampered_returns_default
    (mac : String → String) (innerStore : List (String × JVal))
    (name key : String) (defaultValue : JVal) (now : String)
    (fs : List (String × JVal)) (h : String)
    (hstored : objGet innerStore key = some (.obj fs))
    (hshape : SecureStore.isHmacWrapped (.obj fs) = true)
    (htag : objGet fs "hmac" = some (.str h))
    (hmismatch : h ≠ SecureStore.computeHmac mac (getProp (.obj fs) "data")) :
    SecureStore.get mac innerStore name key defaultValue now =
      (defaultValue,
       [{ timestamp := now, store := name, key := key,
          error := "HMAC verification failed for key: " ++ key ++
            ". Data may be tampered or corrupted.",
          type := "HMAC_VERIFICATION_FAILED" }]) := by
  have hm : h ≠ SecureStore.computeHmac mac ((objGet fs "data").getD JVal.undefined) := by
    simpa [getProp] using hmismatch
  simp [SecureStore.get, hstored, SecureStore.unwrapWithHmac, hshape, getProp,
    htag, hm]

/-- Witness for C1 at a concrete tampered store: the all-zero tag does not
match the recomputed tag over `null`, so `get` returns the default and logs
one incident. -/
theorem secure_get_tampered_returns_default_witness :
    SecureStore.get mockMac [("k", tamperedEntry)] "secure-store" "k"
        (JVal.str "default") "2026-01-01T00:00:00Z" =
      (JVal.str "default",
       [{ timestamp := "2026-01-01T00:00:00Z", store := "secure-store",
          key := "k",
          error := "HMAC verification failed for key: k" ++
            ". Data may be tampered or corrupted.",
          type := "HMAC_VERIFICATION_FAILED" }]) := by
  have := secure_get_tampered_returns_default mockMac [("k", tamperedEntry)]
    "secure-store" "k" (JVal.str "default") "2026-01-01T00:00:00Z"
    [("data", JVal.null), ("hmac", .str zeros64)] zeros64
    (by rfl) (by decide) (by rfl) (by decide)
  simpa using this

/-- A correctly wrapped entry (`wrap(null)` with its genuine tag): a value
that is itself already in wrapped shape. -/
def alreadyWrapped : JVal :=
  .obj [("data", JVal.null),
        ("hmac", .str (SecureStore.computeHmac mockMac JVal.null)),
        ("_v", .num 1)]

/-- Counterexample to C2 as stated: for a value that is itself in wrapped
shape, `wrap` returns it unchanged (no double wrap), so `unwrap (wrap v)`
yields the inner `data` field — here `null` — and not `v` itself.  The
round-trip law `unwrap(wrap(v)) == v` therefore fails on wrapped-shaped
values. -/
theorem unwrap_wrap_roundtrip_counterexample :
    SecureStore.wrapWithHmac mockMac alreadyWrapped = alreadyWrapped
    ∧ SecureStore.unwrapWithHmac mockMac
        (SecureStore.wrapWithHmac mockMac alreadyWrapped) "k" =
        Except.ok JVal.null
    ∧ alreadyWrapped ≠ JVal.null :=
  ⟨rfl, rfl, fun h => JVal.noConfusion h⟩

/-- C2 (amended): for every value `v` that is not already in wrapped shape,
`unwrap(wrap(v)) == v` (for any tag function producing 64-character tags),
and wrapping is idempotent for all values: `wrap(wrap(v)) == wrap(v)` — a
value already in wrapped shape is never double-wrapped. -/
theorem unwrap_wrap_roundtrip_and_idempotent
    (mac : String → String) (hlen : ∀ s, (mac s).length = 64) :
    (∀ (key : String) (v : JVal), SecureStore.isHmacWrapped v = false →
        SecureStore.unwrapWithHmac mac (SecureStore.wrapWithHmac mac v) key =
          Except.ok v)
    ∧ (∀ v : JVal, SecureStore.wrapWithHmac mac (SecureStore.wrapWithHmac mac v)
        = SecureStore.wrapWithHmac mac v) := by
  have hfresh : ∀ v : JVal, SecureStore.isHmacWrapped v = false →
      SecureStore.wrapWithHmac mac v =
        .obj [("data", v), ("hmac", .str (SecureStore.computeHmac mac v)),
              ("_v", .num 1)] := by
    intro v hv
    simp [SecureStore.wrapWithHmac, hv]
  have hshape : ∀ v : JVal, SecureStore.isHmacWrapped v = false →
      SecureStore.isHmacWrapped (SecureStore.wrapWithHmac mac v) = true := by
    intro v hv
    rw [hfresh v hv]
    simp [SecureStore.isHmacWrapped, objGet, SecureStore.computeHmac, hlen]
  constructor
  · intro key v hv
    rw [hfresh v hv]
    have hs : SecureStore.isHmacWrapped
        (JVal.obj [("data", v), ("hmac", .str (SecureStore.computeHmac mac v)),
                   ("_v", .num 1)]) = true := by
      simp [SecureStore.isHmacWrapped, objGet, SecureStore.computeHmac, hlen]
    simp [SecureStore.unwrapWithHmac, hs, getProp, objGet]
  · intro v
    have hw : SecureStore.isHmacWrapped (SecureStore.wrapWithHmac mac v) = true := by
      by_cases hv : SecureStore.isHmacWrapped v = true
      · rw [SecureStore.wrapWithHmac, if_pos hv]
        exact hv
      · rw [Bool.not_eq_true] at hv
        exact hshape v hv
    rw [SecureStore.wrapWithHmac, if_pos hw]

/-- Witness for C2 (amended) at `v = null` with the executable tag
function. -/
theorem unwrap_wrap_roundtrip_and_idempotent_witness :
    SecureStore.unwrapWithHmac mockMac
        (SecureStore.wrapWithHmac mockMac JVal.null) "k" = Except.ok JVal.null
    ∧ SecureStore.wrapWithHmac mockMac
        (SecureStore.wrapWithHmac mockMac JVal.null) =
        SecureStore.wrapWithHmac mockMac JVal.null :=
  ⟨(unwrap_wrap_roundtrip_and_idempotent mockMac mockMac_length).1 "k"
      JVal.null (by decide),
   (unwrap_wrap_roundtrip_and_idempotent mockMac mockMac_length).2 JVal.null⟩

/-- `{a: 1, b: 2}`. -/
def fieldOrderA : JVal := .obj [("a", .num 1), ("b", .num 2)]

/-- `{b: 2, a: 1}` — the same logical object with its fields reordered. -/
def fieldOrderB : JVal := .obj [("b", .num 2), ("a", .num 1)]

/-- Counterexample to C3 as stated: two logically equal objects that differ
only in field order produce different serializations under `JSON.stringify`
(which preserves field order), and hence different tags — the computed tag is
not invariant under field order. -/
theorem hmac_field_order_counterexample :
    jsonEquiv fieldOrderA fieldOrderB = true
    ∧ SecureStore.computeHmac mockMac fieldOrderA ≠
        SecureStore.computeHmac mockMac fieldOrderB := by
  constructor
  · decide
  · decide

/-- C3 (amended): the MAC tag is computed over the `JSON.stringify` image of
the logical stored value, so it depends only on that serialization — storage
whitespace cannot affect it, and any two values with the same serialization
get the same tag — but the serialization preserves object field order, so
logically equal objects differing in field order may receive different tags
(see the counterexample). -/
theorem hmac_depends_only_on_serialization
    (mac : String → String) (v w : JVal) (h : serializeD v = serializeD w) :
    SecureStore.computeHmac mac v = SecureStore.computeHmac mac w := by
  simp [SecureStore.computeHmac, h]

/-- Witness for C3 (amended): two structurally distinct builds of the same
object serialize identically and get the same tag. -/
theorem hmac_depends_only_on_serialization_witness :
    SecureStore.computeHmac mockMac (.obj [("a", .num 1)]) =
      SecureStore.computeHmac mockMac (.obj (("a", .num 1) :: [])) :=
  hmac_depends_only_on_serialization mockMac _ _ (by rfl)

/-- C10: `set(key, value)` never throws to the caller — it is a total
function into `Bool` — returning `true` exactly when wrapping and the
underlying write both succeed, and `false` when either step throws. -/
theorem secure_set_returns_bool
    (wrap : JVal → Except String JVal)
    (write : String → JVal → Except String Unit) (key : String) (value : JVal) :
    (∀ w, wrap value = .ok w →
       (SecureStore.set wrap write key value = true ↔ write key w = .ok ()))
    ∧ (∀ e, wrap value = .error e →
       SecureStore.set wrap write key value = false) := by
  constructor
  · intro w hw
    simp only [SecureStore.set, hw]
    cases hwr : write key w with
    | ok u => cases u; simp
    | error e => simp [hwr]
  · intro e he
    simp [SecureStore.set, he]

/-- Witness for C10: with a successful wrap and a successful write, `set`
returns `true`; with a failing write it returns `false`. -/
theorem secure_set_returns_bool_witness :
    SecureStore.set (fun v => .ok (SecureStore.wrapWithHmac mockMac v))
        (fun _ _ => .ok ()) "k" JVal.null = true
    ∧ SecureStore.set (fun v => .ok (SecureStore.wrapWithHmac mockMac v))
        (fun _ _ => .error "io") "k" JVal.null = false :=
  ⟨((secure_set_returns_bool (fun v => .ok (SecureStore.wrapWithHmac mockMac v))
      (fun _ _ => .ok ()) "k" JVal.null).1 _ rfl).mpr rfl,
   rfl⟩

/-- The persisted key-value state of the underlying `browser.storage.local`
collaborator, as an association list with first-match lookup. -/
abbrev Storage := List (String × JVal)

/-- A write of several items merges them over the existing state
(`browser.storage.local.set(items)`); prepending gives overwrite semantics
under first-match lookup. -/
def storeSet (s : Storage) (items : List (String × JVal)) : Storage :=
  items ++ s

/-- Read fault model for the underlying store collaborator: a read of key `k`
whose stored value is `v` observably returns `view k v`.  The identity view
is a fully reliable store; a non-identity view models silent truncation or
corruption between a write and its read-back. -/
abbrev ReadView := String → Option JVal → Option JVal

/-- One read of `browser.storage.local` through the fault model. -/
def readKey (view : ReadView) (s : Storage) (k : String) : Option JVal :=
  view k (objGet s k)

namespace StorageManager

/-- The retry loop shared by `StorageManager.get`, `set` and `remove`
(StorageManager.js lines 159-181, 203-232, 254-276): `retries` starts at
`MAX_RETRIES`; each failed attempt decrements it and, while retries remain,
sleeps `2^(MAX_RETRIES - retries) * 100` milliseconds.  The operation is
indexed by its 0-based attempt number; the result is paired with the list of
delays actually slept. -/
def retryLoop {α : Type} (op : Nat → Except String α) (maxRetries : Nat) :
    Nat → String → Except String α × List Nat
  | 0, lastError => (.error lastError, [])
  | r + 1, _ =>
    match op (maxRetries - (r + 1)) with
    | .ok a => (.ok a, [])
    | .error e =>
      if r > 0 then
        let rest := retryLoop op maxRetries r e
        (rest.1, (2 ^ (maxRetries - r) * 100) :: rest.2)
      else (.error e, [])

/-- `StorageManager.get`-style execution with the default `MAX_RETRIES = 3`. -/
def runWithRetry {α : Type} (op : Nat → Except String α) :
    Except String α × List Nat :=
  retryLoop op 3 3 ""

end StorageManager

/-- An operation that fails on its first two attempts and succeeds on the
third. -/
def failTwiceOp : Nat → Except String Nat :=
  fun i => if i < 2 then .error "transient I/O failure" else .ok 7

/-- Counterexample to C5 as stated: an operation failing exactly twice and
then succeeding completes with two inter-attempt delays of 200ms and 400ms —
not 100ms and 200ms as claimed.  (The first delay is computed after `retries`
has been decremented to 2, giving `2^(3-2)*100 = 200`.) -/
theorem retry_delays_counterexample :
    StorageManager.runWithRetry failTwiceOp = (Except.ok 7, [200, 400])
    ∧ ([200, 400] : List Nat) ≠ [100, 200] :=
  ⟨rfl, by decide⟩

/-- C5 (amended): when a retried storage operation fails exactly twice and
then succeeds on the third attempt, the retry wrapper returns the success
result after exactly two inter-attempt delays of 200ms and then 400ms; the
delay before attempt `n` (for `n ≥ 2`) is `2^(n-1) * 100` ms — exponential,
no jitter, no cap. -/
theorem retry_two_failures_then_success {α : Type}
    (op : Nat → Except String α) (a : α) (e1 e2 : String)
    (h0 : op 0 = .error e1) (h1 : op 1 = .error e2) (h2 : op 2 = .ok a) :
    StorageManager.runWithRetry op =
      (.ok a, [2 ^ (2 - 1) * 100, 2 ^ (3 - 1) * 100]) := by
  simp [StorageManager.runWithRetry, StorageManager.retryLoop, h0, h1, h2]

/-- Witness for C5 (amended) on the concrete fail-twice operation. -/
theorem retry_two_failures_then_success_witness :
    StorageManager.runWithRetry failTwiceOp =
      (Except.ok 7, [2 ^ (2 - 1) * 100, 2 ^ (3 - 1) * 100]) :=
  retry_two_failures_then_success failTwiceOp 7
    "transient I/O failure" "transient I/O failure" rfl rfl rfl

namespace StorageManager

/-- Events observable from a `StorageManager.set` call: backup creation, the
backoff sleeps, per-key rollback attempts with their success flag, and the
user-facing alert. -/
inductive MEvent where
  | backupCreated (key : String) : MEvent
  | delayed (ms : Nat) : MEvent
  | restoreAttempted (key : String) (ok : Bool) : MEvent
  | alerted (msg : String) : MEvent

/-- The `BackupRecord` written by `createBackup` (StorageManager.js lines
106-128): `{data, timestamp, version}`. -/
def backupRecord (cv : JVal) (now : Nat) : JVal :=
  .obj [("data", cv), ("timestamp", .num now), ("version", .str "1.0.0")]

/-- `StorageManager.createBackup`: capture the pre-write value under
`"__backup__" ++ key`, skipped when no prior value exists. -/
def createBackup (view : ReadView) (now : Nat) (s : Storage) (key : String) :
    Storage × List MEvent :=
  match readKey view s key with
  | some cv =>
    (storeSet s [("__backup__" ++ key, backupRecord cv now)],
     [.backupCreated key])
  | none => (s, [])

/-- The `backup && backup.data !== undefined` guard of `restoreFromBackup`. -/
def backupData (b : JVal) : Option JVal :=
  if truthy b && !(isUndefined (getProp b "data")) then some (getProp b "data")
  else none

/-- `StorageManager.restoreFromBackup` (lines 135-152): read the backup
record and, when it holds data, write that data back under the live key. -/
def restoreFromBackup (view : ReadView) (s : Storage) (key : String) :
    Storage × Bool :=
  match readKey view s ("__backup__" ++ key) with
  | some backup =>
    match backupData backup with
    | some d => (storeSet s [(key, d)], true)
    | none => (s, false)
  | none => (s, false)

/-- Post-write verification for critical writes (lines 211-217): read every
written key back and compare `JSON.stringify` images; the first mismatching
key is reported. -/
def verifyItems (view : ReadView) (s : Storage) :
    List (String × JVal) → Option String
  | [] => none
  | (k, v) :: rest =>
    if serializeOpt (readKey view s k) = serialize v then
      verifyItems view s rest
    else some k

/-- Keys that get a pre-write backup (lines 195-201): the fixed high-value
allow-list plus everything when the write is critical. -/
def backupKeysFor (items : List (String × JVal)) (critical : Bool) :
    List String :=
  (items.map Prod.fst).filter
    (fun k => k == "workflows" || k == "savedBlocks" || critical)

/-- Sequential backup creation for each selected key. -/
def createBackups (view : ReadView) (now : Nat) :
    List String → Storage → Storage × List MEvent
  | [], s => (s, [])
  | k :: rest, s =>
    let p := createBackup view now s k
    let q := createBackups view now rest p.1
    (q.1, p.2 ++ q.2)

/-- Rollback of every affected key from its most recent backup (lines
237-241). -/
def rollbackAll (view : ReadView) (s : Storage) :
    List String → Storage × List MEvent
  | [] => (s, [])
  | k :: rest =>
    let p := restoreFromBackup view s k
    let q := rollbackAll view p.1 rest
    (q.1, .restoreAttempted k p.2 :: q.2)

/-- The user-facing alert raised on a persistent write failure (line 244). -/
def alertMsg : String :=
  "Failed to save data. Please try again or restart the application."

/-- The write-retry loop of `StorageManager.set` (lines 203-232): each
attempt performs the (always low-level-successful) merge write, then — for
critical writes — the read-back verification; a verification mismatch is the
thrown error, decrementing `retries` and sleeping the backoff delay while
retries remain. -/
def setLoop (view : ReadView) (critical : Bool)
    (items : List (String × JVal)) :
    Nat → Storage → String → Except String Unit × Storage × List MEvent
  | 0, s, lastError => (.error lastError, s, [])
  | r + 1, s, _ =>
    let s' := storeSet s items
    match (if critical then verifyItems view s' items else none) with
    | none => (.ok (), s', [])
    | some k =>
      let e := "Write verification failed for " ++ k
      if r > 0 then
        let rest := setLoop view critical items r s' e
        (rest.1, rest.2.1, .delayed (2 ^ (3 - r) * 100) :: rest.2.2)
      else (.error e, s', [])

/-- `StorageManager.set` (lines 189-247): optional pre-write backups, the
retry loop with read-back verification, and — once retries are exhausted —
rollback of every affected key from its most recent backup, the user alert,
and the re-raise of the original error. -/
def set (view : ReadView) (now : Nat) (s0 : Storage)
    (items : List (String × JVal)) (backup critical : Bool) :
    Except String Unit × Storage × List MEvent :=
  let b :=
    if backup || critical then
      createBackups view now (backupKeysFor items critical) s0
    else (s0, [])
  let l := setLoop view critical items 3 b.1 ""
  match l.1 with
  | .ok _ => (.ok (), l.2.1, b.2 ++ l.2.2)
  | .error e =>
    let rb :=
      if backup || critical then rollbackAll view l.2.1 (items.map Prod.fst)
      else (l.2.1, [])
    (.error e, rb.1, b.2 ++ l.2.2 ++ rb.2 ++ [.alerted alertMsg])

end StorageManager

/-- C4: for `set` with `critical = true`, when the underlying write reports
success but reading the key back yields a value not structurally equal to the
intended value, the call is treated as a write failure: after all retry
attempts are exhausted (with the two backoff delays), the manager attempts to
restore the affected key from its most recent backup — the final state again
holds the pre-write value — raises the user-facing alert message, and
re-raises the original verification error to the caller. -/
theorem critical_set_verify_failure_rolls_back
    (view : ReadView) (now : Nat) (s0 : Storage) (oldV newV badV : JVal)
    (hold : objGet s0 "workflows" = some oldV)
    (hviewOld : view "workflows" (some oldV) = some oldV)
    (hviewNew : view "workflows" (some newV) = some badV)
    (hmismatch : serialize badV ≠ serialize newV)
    (hviewBak : view "__backup__workflows"
        (some (StorageManager.backupRecord oldV now)) =
        some (StorageManager.backupRecord oldV now))
    (hdef : isUndefined oldV = false) :
    (StorageManager.set view now s0 [("workflows", newV)] true true).1 =
        .error "Write verification failed for workflows"
    ∧ (StorageManager.set view now s0 [("workflows", newV)] true true).2.2 =
        [.backupCreated "workflows", .delayed 200, .delayed 400,
         .restoreAttempted "workflows" true, .alerted StorageManager.alertMsg]
    ∧ objGet (StorageManager.set view now s0 [("workflows", newV)] true true).2.1
        "workflows" = some oldV := by
  have hvb := hviewBak
  simp only [StorageManager.backupRecord] at hvb
  simp [StorageManager.set, StorageManager.createBackups,
    StorageManager.backupKeysFor, StorageManager.createBackup,
    StorageManager.setLoop, StorageManager.verifyItems,
    StorageManager.rollbackAll, StorageManager.restoreFromBackup,
    StorageManager.backupData, StorageManager.backupRecord, readKey, storeSet,
    objGet, hold, hviewOld, hviewNew, hvb, hdef, serializeOpt, hmismatch,
    getProp, truthy]

/-- A concrete faulty store view: any read of `workflows` that would return
the string `"new"` instead observes the truncated string `"bad"`; all other
reads are faithful. -/
def truncView : ReadView := fun k v =>
  if k = "workflows" then
    match v with
    | some (.str s) => if s = "new" then some (.str "bad") else v
    | _ => v
  else v

/-- Witness for C4 on the concrete truncating view: the old value survives,
the alert fires, and the verification error reaches the caller. -/
theorem critical_set_verify_failure_rolls_back_witness :
    (StorageManager.set truncView 5 [("workflows", JVal.str "old")]
        [("workflows", JVal.str "new")] true true).1 =
        .error "Write verification failed for workflows"
    ∧ (StorageManager.set truncView 5 [("workflows", JVal.str "old")]
        [("workflows", JVal.str "new")] true true).2.2 =
        [.backupCreated "workflows", .delayed 200, .delayed 400,
         .restoreAttempted "workflows" true, .alerted StorageManager.alertMsg]
    ∧ objGet (StorageManager.set truncView 5 [("workflows", JVal.str "old")]
        [("workflows", JVal.str "new")] true true).2.1 "workflows" =
        some (JVal.str "old") :=
  critical_set_verify_failure_rolls_back truncView 5
    [("workflows", JVal.str "old")] (JVal.str "old") (JVal.str "new")
    (JVal.str "bad") rfl rfl rfl (by decide) rfl rfl

namespace StorageManager

/-- The reserved key holding the persisted storage version
(`MIGRATION_VERSION_KEY`, StorageManager.js line 18). -/
def migKey : String := "__storage_version__"

/-- `CURRENT_VERSION` (line 19). -/
def currentVersion : String := "1.0.0"

/-- The registered migration handlers (`_registerMigrations`, lines 35-44):
version `1.0.0` maps to the identity transform. -/
def migrationHandlers : List (String × (JVal → JVal)) :=
  [("1.0.0", fun data => data)]

/-- Insertion of a string into a sorted list (model of the default
lexicographic `Array.sort`). -/
def insertSorted (x : String) : List String → List String
  | [] => [x]
  | y :: ys => if x ≤ y then x :: y :: ys else y :: insertSorted x ys

/-- Lexicographic sort of the registered version labels. -/
def sortStrings : List String → List String
  | [] => []
  | x :: xs => insertSorted x (sortStrings xs)

/-- `Array.indexOf` on a string list. -/
def idxOfStr (x : String) : List String → Option Nat
  | [] => none
  | y :: ys => if y = x then some 0 else (idxOfStr x ys).map (· + 1)

/-- `versions.indexOf(currentVersion) + 1` with the JavaScript `-1` result for
a missing (or non-string) persisted version giving start index 0. -/
def startIdx (cv : JVal) (versions : List String) : Nat :=
  match cv with
  | .str s =>
    match idxOfStr s versions with
    | some i => i + 1
    | none => 0
  | _ => 0

/-- `currentVersion === CURRENT_VERSION` — a strict equality, true only for
the exact string. -/
def isCurrentVersion : JVal → Bool
  | .str s => s == currentVersion
  | _ => false

/-- Lookup of a registered handler by version label. -/
def getHandler (v : String) : List (String × (JVal → JVal)) → Option (JVal → JVal)
  | [] => none
  | (k, f) :: rest => if k = v then some f else getHandler v rest

/-- Application of the selected migration transforms to the full data object,
strictly in label order (lines 73-78). -/
def applyMigrations (data : JVal) : List String → JVal
  | [] => data
  | v :: rest =>
    match getHandler v migrationHandlers with
    | some f => applyMigrations (f data) rest
    | none => applyMigrations data rest

/-- `StorageManager._runMigrations` (lines 50-90), on a reliable store: read
the persisted version; a falsy version is first-time setup (write the current
version); a version strictly equal to the current one is a no-op; otherwise
read all data, apply the registered transforms from the start index in sorted
label order, write the migrated data back and persist the current version.
The list of applied version labels is returned alongside the final state. -/
def runMigrations (s : Storage) : Storage × List String :=
  let cv := (objGet s migKey).getD .undefined
  if truthy cv = false then
    (storeSet s [(migKey, .str currentVersion)], [])
  else if isCurrentVersion cv then
    (s, [])
  else
    let versions := sortStrings (migrationHandlers.map Prod.fst)
    let applied := versions.drop (startIdx cv versions)
    let migrated := applyMigrations (JVal.obj s) applied
    (storeSet (storeSet s (objKeys migrated |>.map
        (fun k => (k, getProp migrated k)))) [(migKey, .str currentVersion)],
     applied)

end StorageManager

/-- Lexicographic character-list order. -/
def lexLt : List Char → List Char → Bool
  | [], [] => false
  | [], _ :: _ => true
  | _ :: _, [] => false
  | a :: as, b :: bs =>
    if a < b then true else if b < a then false else lexLt as bs

/-- "Version `a` is earlier than version `b`": lexicographic order on the
version strings, which agrees with semantic version order for the
single-digit dotted components used here. -/
def versionEarlier (a b : String) : Bool := lexLt a.data b.data

/-- A store whose persisted version is later than the current version. -/
def laterVersionStore : Storage := [(StorageManager.migKey, .str "2.0.0")]

/-- Counterexample to C9 as stated: starting from persisted version
`"2.0.0"`, the migration pass overwrites the stored version with the earlier
current version `"1.0.0"` — the persisted version regresses. -/
theorem migration_version_regression_counterexample :
    objGet laterVersionStore StorageManager.migKey = some (.str "2.0.0")
    ∧ objGet (StorageManager.runMigrations laterVersionStore).1
        StorageManager.migKey = some (.str "1.0.0")
    ∧ versionEarlier "1.0.0" "2.0.0" = true :=
  ⟨rfl, rfl, by decide⟩

/-- C9 (amended): running the migration pass against an already-migrated
store (persisted version equal to the current version) is a no-op with no
applied steps; after any run the stored version equals the current version —
so the version never regresses from any starting version at or below the
current one, though a persisted version later than the current version is
overwritten downward (see the counterexample) — and the applied migration
steps are a contiguous suffix of the sorted registered list: strictly in
order, no skipping. -/
theorem migrations_idempotent_and_ordered :
    (∀ s : Storage, objGet s StorageManager.migKey =
        some (.str StorageManager.currentVersion) →
        StorageManager.runMigrations s = (s, []))
    ∧ (∀ s : Storage, objGet (StorageManager.runMigrations s).1
        StorageManager.migKey = some (.str StorageManager.currentVersion))
    ∧ (∀ s : Storage, (StorageManager.runMigrations s).2 <:+
        StorageManager.sortStrings (StorageManager.migrationHandlers.map Prod.fst)) := by
  refine ⟨?_, ?_, ?_⟩
  · intro s hs
    simp [StorageManager.runMigrations, hs, truthy,
      StorageManager.isCurrentVersion, StorageManager.currentVersion]
  · intro s
    rcases hcv : objGet s StorageManager.migKey with _ | v
    · simp [StorageManager.runMigrations, hcv, truthy, storeSet, objGet]
    · by_cases htr : truthy v = true
      · by_cases hic : StorageManager.isCurrentVersion v = true
        · have hv : v = .str StorageManager.currentVersion := by
            cases v <;> simp [StorageManager.isCurrentVersion] at hic
            simp [hic]
          subst hv
          simp [StorageManager.runMigrations, hcv, truthy,
            StorageManager.isCurrentVersion, StorageManager.currentVersion, hcv]
        · simp [StorageManager.runMigrations, hcv, htr, hic, storeSet, objGet]
      · rw [Bool.not_eq_true] at htr
        simp [StorageManager.runMigrations, hcv, htr, storeSet, objGet]
  · intro s
    rcases hcv : objGet s StorageManager.migKey with _ | v
    · simp [StorageManager.runMigrations, hcv, truthy]
    · by_cases htr : truthy v = true
      · by_cases hic : StorageManager.isCurrentVersion v = true
        · simp [StorageManager.runMigrations, hcv, htr, hic]
        · simp only [StorageManager.runMigrations, hcv, htr, hic,
            Option.getD_some, Bool.true_eq_false, if_false, if_neg]
          exact List.drop_suffix _ _
      · rw [Bool.not_eq_true] at htr
        simp [StorageManager.runMigrations, hcv, htr]

/-- Witness for C9 (amended): the already-migrated singleton store is left
untouched with no applied steps. -/
theorem migrations_idempotent_and_ordered_witness :
    StorageManager.runMigrations [(StorageManager.migKey, .str "1.0.0")] =
      ([(StorageManager.migKey, .str "1.0.0")], []) :=
  migrations_idempotent_and_ordered.1 _ rfl

/-- Events observable from the debounced save queue for one `(storeId, key)`
pair: a superseded request's rejection, and a persisted write carrying the
firing time and the value read from the store at that time. -/
inductive SaveEvent where
  | rejected (reqId : Nat) (reason : String) : SaveEvent
  | persisted (reqId : Nat) (fireTime : Nat) (value : JVal) : SaveEvent

/-- Model of the debounce queue of `saveToStorage` (pinia.js lines 45-157)
for a single `(storeId, key)` pair, driven by the JavaScript event loop:
requests arrive in time order as `(arrivalTime, requestId)` pairs; at most
one pending timer `(requestId, fireTime)` exists; a request arriving before
the pending timer fires cancels that timer and rejects its promise with the
supersede reason, then arms a fresh 300ms window; when a timer fires, the
value is read from the store as of the firing time (`valueAt`), persisted,
and the promise resolves. -/
def runSaveRequests (valueAt : Nat → JVal) :
    Option (Nat × Nat) → List (Nat × Nat) → List SaveEvent
  | none, [] => []
  | some (pid, ft), [] => [.persisted pid ft (valueAt ft)]
  | none, (t, rid) :: rest => runSaveRequests valueAt (some (rid, t + 300)) rest
  | some (pid, ft), (t, rid) :: rest =>
    if ft ≤ t then
      .persisted pid ft (valueAt ft) ::
        runSaveRequests valueAt (some (rid, t + 300)) rest
    else
      .rejected pid "Save cancelled due to new save request" ::
        runSaveRequests valueAt (some (rid, t + 300)) rest

/-- C6: three `scheduleSave` calls for the same `(store, key)` pair inside
one 300ms debounce window produce exactly one persisted write, whose value is
read from the store when the last call's window elapses (not at schedule
time); the first two promises are rejected with the supersede reason, each
new request cancelling the previous pending timer and rejecting its promise
before arming a fresh window. -/
theorem coalesced_saves_single_write (valueAt : Nat → JVal) (t1 t2 t3 : Nat)
    (h12 : t2 < t1 + 300) (h23 : t3 < t2 + 300) :
    runSaveRequests valueAt none [(t1, 1), (t2, 2), (t3, 3)] =
      [.rejected 1 "Save cancelled due to new save request",
       .rejected 2 "Save cancelled due to new save request",
       .persisted 3 (t3 + 300) (valueAt (t3 + 300))] := by
  have n1 : ¬(t1 + 300 ≤ t2) := by omega
  have n2 : ¬(t2 + 300 ≤ t3) := by omega
  simp [runSaveRequests, n1, n2]

/-- Witness for C6 at request times 0ms, 100ms, 200ms. -/
theorem coalesced_saves_single_write_witness :
    runSaveRequests (fun _ => JVal.str "latest") none [(0, 1), (100, 2), (200, 3)] =
      [.rejected 1 "Save cancelled due to new save request",
       .rejected 2 "Save cancelled due to new save request",
       .persisted 3 500 (JVal.str "latest")] :=
  coalesced_saves_single_write (fun _ => JVal.str "latest") 0 100 200
    (by decide) (by decide)

/-- The guard of the unwrap loop in `convertWorkflowsToObject`
(src/stores/workflow.js lines 96-98): the current value is a truthy object
whose `workflows` property is itself a truthy object. -/
def wrapperGuard (u : JVal) : Bool :=
  truthy u && isObjectType u && truthy (getProp u "workflows")
    && isObjectType (getProp u "workflows")

/-- `isActualWorkflow` (lines 104-105): the nested value carries a truthy
string `id` — any non-empty string id, not only one equal to the outer key
name. -/
def isActualWorkflow (v : JVal) : Bool :=
  match getProp v "id" with
  | .str s => s != ""
  | _ => false

/-- In-place property assignment `acc[k] = v`: overwrite the first occurrence
keeping its position, append otherwise — exactly JavaScript property
definition order. -/
def setKey : List (String × JVal) → String → JVal → List (String × JVal)
  | [], k, v => [(k, v)]
  | (k', v') :: rest, k, v =>
    if k' = k then (k', v) :: rest else (k', v') :: setKey rest k v

/-- Own enumerable properties contributed by a value under object spread
(objects contribute their fields; the other shapes that occur here contribute
none). -/
def toProps : JVal → List (String × JVal)
  | .obj fs => fs
  | _ => []

/-- JavaScript object spread `{...xs, ...ys}`: assign the properties of both
lists in order into a fresh object, later assignments overriding in place. -/
def spreadProps (xs ys : List (String × JVal)) : List (String × JVal) :=
  (xs ++ ys).foldl (fun acc kv => setKey acc kv.1 kv.2) []

/-- The merged object `{...a, ...b}` — on key collisions the properties of
`b` take precedence. -/
def spreadMerge (a b : JVal) : JVal := .obj (spreadProps (toProps a) (toProps b))

/-- The rest pattern `const { workflows: nested, ...rootWorkflows }`: all own
properties except the named one, in order. -/
def restObj (u : JVal) (k : String) : JVal :=
  .obj ((toProps u).filter (fun p => p.1 != k))

/-- `unwrapped || {}` (line 142). -/
def orEmpty (v : JVal) : JVal := if truthy v then v else .obj []

/-- String conversion of a property key (`acc[workflow.id]`). -/
def propKeyOf : JVal → String
  | .str s => s
  | .num n => toString n
  | .null => "null"
  | .undefined => "undefined"
  | .bool b => if b then "true" else "false"
  | .arr _ => ""
  | .obj _ => "[object Object]"

/-- The array branch of `convertWorkflowsToObject` (lines 83-89): reduce a
list of workflows into a mapping keyed by each entry's `id`. -/
def arrayToById (xs : List JVal) : JVal :=
  .obj (xs.foldl (fun acc x => setKey acc (propKeyOf (getProp x "id")) x) [])

theorem sizeOf_objGet {fs : List (String × JVal)} {k : String} {v : JVal}
    (h : objGet fs k = some v) : sizeOf v < 1 + sizeOf fs := by
  induction fs with
  | nil => simp [objGet] at h
  | cons hd tl ih =>
    obtain ⟨k1, v1⟩ := hd
    simp only [objGet] at h
    split at h
    · cases h; simp; omega
    · have := ih h
      simp at this ⊢
      omega

theorem sizeOf_getProp {u : JVal} (h : truthy (getProp u "workflows") = true) :
    sizeOf (getProp u "workflows") < sizeOf u := by
  match u with
  | .undefined | .null | .bool _ | .num _ | .str _ | .arr _ =>
    simp [getProp, truthy] at h
  | .obj fs =>
    simp only [getProp] at h ⊢
    match hg : objGet fs "workflows" with
    | none => rw [hg] at h; simp [truthy] at h
    | some v =>
      have := sizeOf_objGet hg
      simp at this ⊢
      omega

mutual

/-- `convertWorkflowsToObject` (src/stores/workflow.js lines 82-143): arrays
are keyed by id directly; otherwise the nested-`workflows` unwrap loop runs
and a falsy result becomes the empty object. -/
def convertWorkflowsToObject (w : JVal) : JVal :=
  if isArr w then arrayToById (asArr w) else orEmpty (unwrapLoop w 0)
termination_by (sizeOf w, 1)

/-- The `while` loop of `convertWorkflowsToObject` (lines 96-132), with
`count` the number of unwrap steps taken so far (bounded by
`maxUnwrapAttempts = 10`): a nested value with a truthy string `id` is a
legitimate entry and terminates the loop; a pure wrapper (single
self-referential key) descends one level; mixed corruption recursively
normalizes the nested part and merges it under the root-level siblings, which
take precedence. -/
def unwrapLoop (u : JVal) (count : Nat) : JVal :=
  if hg : wrapperGuard u = true ∧ count < 10 then
    if isActualWorkflow (getProp u "workflows") then u
    else if (objKeys u).length = 1 then
      unwrapLoop (getProp u "workflows") (count + 1)
    else
      spreadMerge (convertWorkflowsToObject (getProp u "workflows"))
        (restObj u "workflows")
  else u
termination_by (sizeOf u, 0)
decreasing_by
  · have hlt : sizeOf (getProp u "workflows") < sizeOf u := by
      apply sizeOf_getProp
      have h := hg.1
      simp only [wrapperGuard, Bool.and_eq_true] at h
      exact h.1.2
    exact Prod.Lex.left _ _ hlt
  · have hlt : sizeOf (getProp u "workflows") < sizeOf u := by
      apply sizeOf_getProp
      have h := hg.1
      simp only [wrapperGuard, Bool.and_eq_true] at h
      exact h.1.2
    exact Prod.Lex.left _ _ hlt

end

/-- An object collection whose self-referential key holds a single entry
whose own id (`"a"`) differs from the outer key name (`"workflows"`). -/
def selfKeyedOther : JVal := .obj [("workflows", .obj [("id", .str "a")])]

/-- Counterexample to C7 as stated: the repair also stops — returning the
input unchanged — when the nested value's id is a non-empty string different
from the outer key name, so "stops exactly when the nested id equals the
outer key name" is false: here the nested id is `"a"`, not `"workflows"`,
yet nothing is repaired. -/
theorem normalize_stops_on_any_string_id_counterexample :
    convertWorkflowsToObject selfKeyedOther = selfKeyedOther
    ∧ getProp (getProp selfKeyedOther "workflows") "id" = .str "a"
    ∧ ("a" : String) ≠ "workflows" := by
  refine ⟨?_, by simp [selfKeyedOther, getProp, objGet], by decide⟩
  simp [selfKeyedOther, convertWorkflowsToObject, unwrapLoop, wrapperGuard,
    truthy, isObjectType, getProp, objGet, isActualWorkflow, objKeys, orEmpty,
    isArr, asArr]

/-- C7 (amended): during corruption repair of an object collection containing
a self-referential key whose value is an object, `normalize` treats that
nested value as a legitimate single entry and stops without repairing
whenever the nested value's own `id` field is a non-empty string — whether or
not it equals the outer key name; in particular
`normalize({workflows: {id: "workflows", name: "My flow"}})` is returned
unchanged. -/
theorem normalize_keeps_legitimate_entry
    (fs : List (String × JVal)) (nested : JVal)
    (hn : objGet fs "workflows" = some nested)
    (htr : truthy nested = true) (hobj : isObjectType nested = true)
    (hid : isActualWorkflow nested = true) :
    convertWorkflowsToObject (.obj fs) = .obj fs := by
  have hguard : wrapperGuard (JVal.obj fs) = true := by
    simp only [wrapperGuard, getProp, hn, Option.getD_some, htr, hobj]
    simp [truthy, isObjectType]
  have hact : isActualWorkflow (getProp (JVal.obj fs) "workflows") = true := by
    simp only [getProp, hn, Option.getD_some, hid]
  rw [convertWorkflowsToObject]
  rw [if_neg (by simp [isArr])]
  rw [unwrapLoop]
  rw [dif_pos ⟨hguard, by omega⟩]
  rw [if_pos hact]
  simp [orEmpty, truthy]

/-- Witness for C7 (amended): the workflow legitimately named `"workflows"`
from the specification example is preserved unchanged. -/
theorem normalize_keeps_legitimate_entry_witness :
    convertWorkflowsToObject
        (.obj [("workflows",
          .obj [("id", .str "workflows"), ("name", .str "My flow")])]) =
      .obj [("workflows",
        .obj [("id", .str "workflows"), ("name", .str "My flow")])] :=
  normalize_keeps_legitimate_entry _
    (.obj [("id", .str "workflows"), ("name", .str "My flow")])
    rfl rfl rfl (by decide)

/-- `{id: "a"}`. -/
def wfA : JVal := .obj [("id", .str "a")]

/-- `{id: "c"}`. -/
def wfC : JVal := .obj [("id", .str "c")]

/-- `{id: "a", name: "old"}` — the stale nested copy of entry `a`. -/
def wfOld : JVal := .obj [("id", .str "a"), ("name", .str "old")]

/-- `{id: "a", name: "new"}` — the fresh root-level copy of entry `a`. -/
def wfNew : JVal := .obj [("id", .str "a"), ("name", .str "new")]

/-- C8: for mixed corruption — the self-referential key coexisting with
sibling real entries at the same level — `normalize` recursively normalizes
the nested part, merges it with the sibling entries with root-level siblings
taking precedence on key collisions, and then terminates; in particular
`normalize({workflows: {"a": {id:"a"}}, "c": {id:"c"}})` equals
`{"a": {id:"a"}, "c": {id:"c"}}`, and on a collision the root-level copy
wins. -/
theorem normalize_mixed_corruption_merges :
    (∀ (fs : List (String × JVal)) (nested : JVal),
       objGet fs "workflows" = some nested →
       truthy nested = true → isObjectType nested = true →
       isActualWorkflow nested = false →
       (objKeys (JVal.obj fs)).length ≠ 1 →
       convertWorkflowsToObject (.obj fs) =
         spreadMerge (convertWorkflowsToObject nested)
           (restObj (.obj fs) "workflows"))
    ∧ convertWorkflowsToObject (.obj [("workflows", .obj [("a", wfA)]), ("c", wfC)])
        = .obj [("a", wfA), ("c", wfC)]
    ∧ convertWorkflowsToObject (.obj [("workflows", .obj [("a", wfOld)]), ("a", wfNew)])
        = .obj [("a", wfNew)] := by
  refine ⟨?_, ?_, ?_⟩
  · intro fs nested hn htr hobj hid hkeys
    have hguard : wrapperGuard (JVal.obj fs) = true := by
      simp only [wrapperGuard, getProp, hn, Option.getD_some, htr, hobj]
      simp [truthy, isObjectType]
    have hact : ¬(isActualWorkflow (getProp (JVal.obj fs) "workflows") = true) := by
      simp only [getProp, hn, Option.getD_some, hid]
      simp
    rw [convertWorkflowsToObject]
    rw [if_neg (by simp [isArr])]
    rw [unwrapLoop]
    rw [dif_pos ⟨hguard, by omega⟩]
    rw [if_neg hact]
    rw [if_neg hkeys]
    simp [getProp, hn, orEmpty, spreadMerge, truthy]
  · simp [convertWorkflowsToObject, unwrapLoop, wrapperGuard, truthy,
      isObjectType, getProp, objGet, isActualWorkflow, objKeys, orEmpty, isArr,
      asArr, spreadMerge, spreadProps, toProps, restObj, setKey, wfA, wfC]
  · simp [convertWorkflowsToObject, unwrapLoop, wrapperGuard, truthy,
      isObjectType, getProp, objGet, isActualWorkflow, objKeys, orEmpty, isArr,
      asArr, spreadMerge, spreadProps, toProps, restObj, setKey, wfOld, wfNew]

/-- Witness for C8 on the specification's mixed-corruption instance,
exhibiting the merge shape produced by the general statement. -/
theorem normalize_mixed_corruption_merges_witness :
    convertWorkflowsToObject (.obj [("workflows", .obj [("a", wfA)]), ("c", wfC)]) =
      spreadMerge (convertWorkflowsToObject (.obj [("a", wfA)]))
        (restObj (.obj [("workflows", .obj [("a", wfA)]), ("c", wfC)]) "workflows") :=
  normalize_mixed_corruption_merges.1 _ (.obj [("a", wfA)]) rfl rfl rfl
    (by decide) (by decide)
